import Mathlib

set_option linter.unusedVariables false

/-!
Shallow embedding of the TalentScout screening application (`app.py`).

The application is a four-stage screening flow driven by a finite-state
machine over a per-session mutable state.  Streamlit's re-render loop is
modelled as explicit state passing: each user interaction is one event fed
to a step function `AppState → Event → AppState × List UIMsg`.  The
external text-generation service (OpenAI) is modelled by an explicit
outcome parameter, as a typed result of the single remote call.

Lean's built-in `String.splitOn`, `String.trim`, `String.toLower` do not
reduce in the kernel, so the file defines its own character-list string
primitives mirroring the Python string methods used by the source
(`str.split` with a one-character separator, `str.strip`, `str.lower`,
and the `in` substring test).
-/

/-- Python `sep.split` helper: splits a character list on a separator
character, keeping empty segments, mirroring `str.split(sep)` for a
one-character separator (`"".split(sep) == ['']`). -/
def splitOnCharAux (sep : Char) : List Char → List Char → List (List Char)
  | [], acc => [acc.reverse]
  | c :: rest, acc =>
    if c == sep then acc.reverse :: splitOnCharAux sep rest []
    else splitOnCharAux sep rest (c :: acc)

/-- `strSplitOn s sep` models Python `s.split(sep)` for a one-character
separator. -/
def strSplitOn (s : String) (sep : Char) : List String :=
  (splitOnCharAux sep s.toList []).map String.mk

/-- Models Python `s.strip()`: removes leading and trailing whitespace. -/
def strTrim (s : String) : String :=
  String.mk (((s.toList.dropWhile Char.isWhitespace).reverse.dropWhile
    Char.isWhitespace).reverse)

/-- Models Python `s.lower()` (ASCII range, which covers all inputs the
claims exercise). -/
def strLower (s : String) : String :=
  String.mk (s.toList.map Char.toLower)

/-- `leadsWith s pat` is true when `pat` is an initial run of `s`. -/
def leadsWith : List Char → List Char → Bool
  | _, [] => true
  | [], _ :: _ => false
  | c :: s, p :: ps => c == p && leadsWith s ps

/-- `containsSub s pat` is true when `pat` occurs contiguously inside `s`
(the empty pattern always occurs), mirroring Python `pat in s`. -/
def containsSub : List Char → List Char → Bool
  | [], pat => pat.isEmpty
  | c :: t, pat => leadsWith (c :: t) pat || containsSub t pat

/-- Models the Python substring test `pat in s`. -/
def strContains (s pat : String) : Bool :=
  containsSub s.toList pat.toList

/-- Character class `[a-zA-Z0-9._%+-]` of the email pattern's local part. -/
def isLocalChar (c : Char) : Bool :=
  c.isAlphanum || c == '.' || c == '_' || c == '%' || c == '+' || c == '-'

/-- Character class `[a-zA-Z0-9.-]` of the email pattern's domain part. -/
def isDomainChar (c : Char) : Bool :=
  c.isAlphanum || c == '.' || c == '-'

/-- Matches the tail regex `[a-zA-Z0-9.-]+\.[a-zA-Z]{2,}` against the whole
of `dp`.  Because the trailing `[a-zA-Z]{2,}` may not contain a dot, the
literal `\.` of the pattern can only match the last dot of `dp`, so the
regex matches iff splitting at the last dot gives a non-empty all-domain-
character part and an all-alphabetic part of length at least 2. -/
def domainMatch (dp : List Char) : Bool :=
  let r := dp.reverse
  let tld := (r.takeWhile (fun c => !(c == '.'))).reverse
  let rest := r.dropWhile (fun c => !(c == '.'))
  match rest with
  | [] => false
  | _ :: preR =>
    let pre := preR.reverse
    !pre.isEmpty && pre.all isDomainChar && tld.length ≥ 2 && tld.all Char.isAlpha

/-- Matches `^[a-zA-Z0-9._%+-]+@[a-zA-Z0-9.-]+\.[a-zA-Z]{2,}$` against the
whole character list.  Neither character class contains `'@'`, so a match
requires exactly one `'@'` in the string, splitting it into the local part
and the domain part. -/
def emailCore (l : List Char) : Bool :=
  match splitOnCharAux '@' l [] with
  | [lp, dp] => !lp.isEmpty && lp.all isLocalChar && domainMatch dp
  | _ => false

/-- `CandidateDataCollector._validate_email` (app.py:133-136):
`re.match(pattern, email) is not None` with the pattern above.  In Python's
`re`, `$` matches at the end of the string or just before one trailing
newline, so both cases are accepted. -/
def validate_email (email : String) : Bool :=
  emailCore email.toList ||
    (match email.toList.getLast? with
     | some c => c == '\n' && emailCore email.toList.dropLast
     | none => false)

/-- `CandidateDataCollector._validate_form` (app.py:121-131).  Python
string truthiness makes `not all([...])` a check that none of the five
string fields is empty; `years_experience` is accepted unchecked; an empty
`desired_positions` selection fails; finally the email pattern is checked. -/
def validate_form (full_name email phone_number : String)
    (years_experience : Nat) (desired_positions : List String)
    (current_location tech_stack : String) : Bool :=
  if full_name = "" || email = "" || phone_number = "" ||
     current_location = "" || tech_stack = "" then false
  else if desired_positions.isEmpty then false
  else validate_email email

/-- Tech-stack derivation in `CandidateDataCollector._save_candidate_data`
(app.py:142): `[tech.strip() for tech in data['tech_stack'].split(',') if
tech.strip()]`. -/
def parse_tech_stack (raw : String) : List String :=
  ((strSplitOn raw ',').filter (fun t => strTrim t ≠ "")).map strTrim

/-- `Config.EXIT_KEYWORDS` (app.py:21). -/
def EXIT_KEYWORDS : List String := ["exit", "quit", "bye", "goodbye", "stop"]

/-- Generic questions synthesized when no static fallback key matches
(app.py:241-246), the f-string templates applied to the technology name. -/
def generic_questions (technology : String) : List String :=
  ["What experience do you have with " ++ technology ++ "?",
   "Describe a challenging project you built using " ++ technology ++ ".",
   "What are the best practices for working with " ++ technology ++ "?",
   "How would you troubleshoot performance issues in " ++ technology ++ "?"]

/-- The static fallback dictionary of
`TechQuestionGenerator._get_fallback_questions` (app.py:209-234), in
insertion (= iteration) order. -/
def fallback_table : List (String × List String) :=
  [("python",
    ["What are the key differences between lists and tuples in Python?",
     "How does Python handle memory management?",
     "Explain the concept of decorators in Python.",
     "What are some common use cases for generators?"]),
   ("javascript",
    ["Explain the event loop in JavaScript.",
     "What are the differences between let, const, and var?",
     "How does prototypal inheritance work in JavaScript?",
     "What are promises and how do they work?"]),
   ("react",
    ["What is the virtual DOM and how does it work?",
     "Explain the component lifecycle methods.",
     "What are hooks and how do they differ from class components?",
     "How would you optimize React application performance?"]),
   ("node.js",
    ["How does Node.js handle asynchronous operations?",
     "Explain the event-driven architecture of Node.js.",
     "What are streams and how are they used?",
     "How would you handle memory leaks in Node.js?"])]

/-- `TechQuestionGenerator._get_fallback_questions` (app.py:207-246): the
first table key contained in the lowercased technology name wins; with no
match the four generic template questions are synthesized. -/
def get_fallback_questions (technology : String) : List String :=
  let tech_lower := strLower technology
  match fallback_table.find? (fun kv => strContains tech_lower kv.1) with
  | some kv => kv.2
  | none => generic_questions technology

/-- Typed result of the single remote text-generation call, following the
source's handling (app.py:184-201): any raised exception is `failure`; a
reply whose stripped text parses with `json.loads` as a JSON array of
strings is `jsonArray`; a reply that raises `JSONDecodeError` is kept as
raw text (`plainText`) and split on newlines. -/
inductive RemoteOutcome where
  | failure
  | jsonArray (questions : List String)
  | plainText (body : String)
deriving DecidableEq, Repr

/-- `TechQuestionGenerator.generate_questions_for_tech` (app.py:165-205),
with the resolved API key and the remote call's outcome passed explicitly.
An empty key models the falsy `self.api_key` check; `questions[:5]` is the
truncation to at most 5 entries; the `plainText` branch is
`[q.strip() for q in questions_text.split('\n') if q.strip()]`. -/
def generate_questions_for_tech (api_key : String) (outcome : RemoteOutcome)
    (technology : String) (experience_level : Nat) : List String :=
  if api_key = "" then get_fallback_questions technology
  else
    match outcome with
    | .failure => get_fallback_questions technology
    | .jsonArray questions => questions.take 5
    | .plainText body =>
      (((strSplitOn body '\n').filter (fun q => strTrim q ≠ "")).map strTrim).take 5

/-- Conversation roles used by `add_to_history` (app.py:51-57). -/
inductive Role where
  | user
  | system
deriving DecidableEq, Repr

/-- One entry of `conversation_history` (app.py:53-57).  The wall-clock
`timestamp` field is outside the embedding and omitted; no claim reads it. -/
structure ConvEntry where
  role : Role
  message : String
deriving DecidableEq, Repr

/-- The four values of `st.session_state.current_stage` (app.py:273-280). -/
inductive Stage where
  | greeting
  | data_collection
  | technical_assessment
  | completion
deriving DecidableEq, Repr

/-- One value of the `tech_responses` mapping: `{'questions': ...,
'answers': ...}` (app.py:341-344). -/
structure TechResponse where
  questions : List String
  answers : List String
deriving DecidableEq, Repr

/-- The intake form fields (app.py:85-100, 107-115). -/
structure IntakeForm where
  full_name : String
  email : String
  phone_number : String
  years_experience : Nat
  desired_positions : List String
  current_location : String
  tech_stack : String
deriving DecidableEq, Repr

/-- The `candidate_data` dict: `intake = none` models the initial empty
dict; `tech_responses` models the `'tech_responses'` key (absent = `[]`). -/
structure CandidateData where
  intake : Option IntakeForm
  tech_responses : List (String × TechResponse)
deriving DecidableEq, Repr

/-- The per-session state initialized in
`ConversationManager._initialize_session_state` (app.py:36-49). -/
structure AppState where
  conversation_history : List ConvEntry
  candidate_data : CandidateData
  current_stage : Stage
  tech_questions : List (String × List String)
  current_tech_index : Nat
  tech_stack_list : List String
deriving DecidableEq, Repr

/-- The fresh session state (app.py:36-49). -/
def initialState : AppState :=
  { conversation_history := []
    candidate_data := { intake := none, tech_responses := [] }
    current_stage := .greeting
    tech_questions := []
    current_tech_index := 0
    tech_stack_list := [] }

/-- Dict lookup on an insertion-ordered association list. -/
def lookupAssoc {α : Type} (l : List (String × α)) (k : String) : Option α :=
  (l.find? (fun kv => kv.1 == k)).map Prod.snd

/-- Dict assignment `d[k] = v` on an insertion-ordered association list:
replaces in place when the key exists, appends otherwise. -/
def setAssoc {α : Type} : List (String × α) → String → α → List (String × α)
  | [], k, v => [(k, v)]
  | kv :: rest, k, v =>
    if kv.1 == k then (k, v) :: rest else kv :: setAssoc rest k v

/-- `ConversationManager.add_to_history` (app.py:51-57). -/
def add_to_history (st : AppState) (role : Role) (message : String) : AppState :=
  { st with conversation_history := st.conversation_history ++ [⟨role, message⟩] }

/-- User-facing notices the step functions can surface. -/
inductive UIMsg where
  | thankYou
  | pleaseUseForm
  | fillFields
  | invalidEmail
  | noTechError
  | answerAllError
deriving DecidableEq, Repr

/-- Events in the technical-assessment stage: a plain re-render, or a
submission of the per-technology answer form with one answer string per
rendered question. -/
inductive AssessEvent where
  | render
  | submit (answers : List String)
deriving DecidableEq, Repr

/-- One user interaction: each Streamlit rerun is triggered by exactly one
of these (a button press, a form submission, a chat message, or nothing). -/
inductive Event where
  | begin
  | intake (form : IntakeForm)
  | assess (ev : AssessEvent)
  | reset
  | chat (message : String)
  | idle
deriving DecidableEq, Repr

/-- `candidate_data.get('years_experience', 0)` (app.py:315). -/
def years_experience_of (st : AppState) : Nat :=
  match st.candidate_data.intake with
  | some f => f.years_experience
  | none => 0

/-- `TalentScoutApp._save_candidate_data` via `_save_candidate_data`
(app.py:138-143): the assignment `self.state.candidate_data = data`
replaces the whole dict (so it carries no `tech_responses` key afterward),
and the tech stack list is derived from the raw comma-separated string. -/
def save_candidate_data (st : AppState) (f : IntakeForm) : AppState :=
  { st with candidate_data := { intake := some f, tech_responses := [] }
            tech_stack_list := parse_tech_stack f.tech_stack }

/-- `CandidateDataCollector.collect_basic_info` on a submitted form
(app.py:104-119): validate, persist on success, surface the fill-fields
error on failure.  The returned flag is the function's truth value. -/
def collect_basic_info (st : AppState) (f : IntakeForm) :
    AppState × Bool × List UIMsg :=
  if validate_form f.full_name f.email f.phone_number f.years_experience
      f.desired_positions f.current_location f.tech_stack then
    (save_candidate_data st f, true, [])
  else
    (st, false, [.fillFields])

/-- `TalentScoutApp._collect_candidate_data` (app.py:289-294): on a
successful intake the stage advances to `technical_assessment` and a
system entry is appended to the history. -/
def collect_candidate_data (st : AppState) (f : IntakeForm) :
    AppState × List UIMsg :=
  let r := collect_basic_info st f
  if r.2.1 then
    (add_to_history { r.1 with current_stage := .technical_assessment }
      .system "Candidate completed basic information form", r.2.2)
  else
    (r.1, r.2.2)

/-- The memoization block of `_conduct_technical_assessment`
(app.py:313-317): `if current_tech not in tech_questions: generate and
store`; a fresh dict key is appended in insertion order.  The Boolean
records whether a generation event occurred on this pass. -/
def ensure_tech_questions (gen : String → Nat → List String) (st : AppState)
    (tech : String) : AppState × Bool :=
  match lookupAssoc st.tech_questions tech with
  | some _ => (st, false)
  | none =>
    ({ st with tech_questions :=
        st.tech_questions ++ [(tech, gen tech (years_experience_of st))] },
     true)

/-- `TalentScoutApp._conduct_technical_assessment` (app.py:296-351): empty
tech stack blocks with an error; an exhausted cursor moves the stage to
`completion`; otherwise the current technology's questions are ensured and
a submission with all answers non-empty records a `TechResponse` and
increments the cursor, while any empty answer surfaces an error. -/
def conduct_technical_assessment (gen : String → Nat → List String)
    (st : AppState) (ev : AssessEvent) : AppState × List UIMsg :=
  if st.tech_stack_list.isEmpty then (st, [.noTechError])
  else if h : st.current_tech_index < st.tech_stack_list.length then
    let current_tech := st.tech_stack_list.get ⟨st.current_tech_index, h⟩
    let st1 := (ensure_tech_questions gen st current_tech).1
    let questions := (lookupAssoc st1.tech_questions current_tech).getD []
    match ev with
    | .render => (st1, [])
    | .submit answers =>
      if answers.all (fun a => a != "") then
        ({ st1 with
            candidate_data :=
              { intake := st1.candidate_data.intake
                tech_responses :=
                  setAssoc st1.candidate_data.tech_responses current_tech
                    { questions := questions, answers := answers } }
            current_tech_index := st1.current_tech_index + 1 },
         [])
      else (st1, [.answerAllError])
  else ({ st with current_stage := .completion }, [])

/-- The stage dispatch of `TalentScoutApp.run` (app.py:272-280): each stage
handler reacts only to the events its own widgets can produce; the
assessment stage runs on every pass (any other event is a plain render);
the completion stage's restart button tears the whole session down
(app.py:364-368). -/
def dispatch (gen : String → Nat → List String) (st : AppState) (ev : Event) :
    AppState × List UIMsg :=
  match st.current_stage with
  | .greeting =>
    match ev with
    | .begin => ({ st with current_stage := .data_collection }, [])
    | _ => (st, [])
  | .data_collection =>
    match ev with
    | .intake f => collect_candidate_data st f
    | _ => (st, [])
  | .technical_assessment =>
    conduct_technical_assessment gen st
      (match ev with | .assess a => a | _ => .render)
  | .completion =>
    match ev with
    | .reset => (initialState, [])
    | _ => (st, [])

/-- `TalentScoutApp._check_exit_command` (app.py:370-385): a non-empty chat
message is appended to the history; if its lowercased text contains any
exit keyword the turn ends with the thank-you message, otherwise a
please-use-the-form warning is shown and dispatch proceeds. -/
def check_exit_command (st : AppState) (chat_message : Option String) :
    AppState × Bool × List UIMsg :=
  match chat_message with
  | none => (st, false, [])
  | some s =>
    if s = "" then (st, false, [])
    else
      let st1 := add_to_history st .user s
      if EXIT_KEYWORDS.any (fun k => strContains (strLower s) k) then
        (st1, true, [.thankYou])
      else
        (st1, false, [.pleaseUseForm])

/-- `TalentScoutApp.run` (app.py:264-280): one pass = exit check first,
then, unless the exit path fired, the stage dispatch. -/
def run (gen : String → Nat → List String) (st : AppState) (ev : Event) :
    AppState × List UIMsg :=
  let chat_message : Option String :=
    match ev with | .chat s => some s | _ => none
  let r := check_exit_command st chat_message
  if r.2.1 then (r.1, r.2.2)
  else
    let d := dispatch gen r.1 ev
    (d.1, r.2.2 ++ d.2)

/-- One assessment-stage pass, guarded exactly as the dispatcher guards it:
the handler runs only while `current_stage` is `technical_assessment`. -/
def assessStep (gen : String → Nat → List String) (st : AppState)
    (ev : AssessEvent) : AppState × List UIMsg :=
  if st.current_stage = .technical_assessment then
    conduct_technical_assessment gen st ev
  else (st, [])

/-- Iterated assessment-stage passes. -/
def assessTrace (gen : String → Nat → List String) :
    AppState → List AssessEvent → AppState
  | st, [] => st
  | st, ev :: evs => assessTrace gen (assessStep gen st ev).1 evs

/-- Number of successful per-technology submissions along a trace: exactly
the passes on which the cursor `current_tech_index` advanced by one (the
only way the handler ever changes it). -/
def successCount (gen : String → Nat → List String) :
    AppState → List AssessEvent → Nat
  | _, [] => 0
  | st, ev :: evs =>
    let st1 := (assessStep gen st ev).1
    (if st1.current_tech_index = st.current_tech_index + 1 then 1 else 0) +
      successCount gen st1 evs

/-- Tech-stack derivation as the spec words it: "the comma-separated input
split, trimmed, with empty segments removed, order preserved". -/
def spec_tech_stack (raw : String) : List String :=
  ((strSplitOn raw ',').map strTrim).filter (fun t => t ≠ "")

/-- A deterministic stand-in question source used to instantiate theorems
on concrete inputs. -/
def sampleGen : String → Nat → List String := fun t _ => get_fallback_questions t

/-- A concrete session sitting in the assessment stage with one declared
technology whose questions are already generated. -/
def sampleAssessState : AppState :=
  { conversation_history := []
    candidate_data := { intake := none, tech_responses := [] }
    current_stage := .technical_assessment
    tech_questions := [("Python", ["q1", "q2"])]
    current_tech_index := 0
    tech_stack_list := ["Python"] }

/-- A concrete assessment-stage session whose stored question list for the
current technology is empty (a remote reply of `[]`). -/
def sampleEmptyQState : AppState :=
  { conversation_history := []
    candidate_data := { intake := none, tech_responses := [] }
    current_stage := .technical_assessment
    tech_questions := [("Python", [])]
    current_tech_index := 0
    tech_stack_list := ["Python"] }

/-- A concrete assessment-stage session with an empty declared tech stack. -/
def sampleEmptyStackState : AppState :=
  { conversation_history := []
    candidate_data := { intake := none, tech_responses := [] }
    current_stage := .technical_assessment
    tech_questions := []
    current_tech_index := 0
    tech_stack_list := [] }

/-- A concrete intake form that fails validation (empty phone number). -/
def sampleBadForm : IntakeForm :=
  { full_name := "Jane Doe", email := "a@b.co", phone_number := "",
    years_experience := 2, desired_positions := ["Software Engineer"],
    current_location := "SF", tech_stack := "Python" }

/-- A concrete intake form that passes validation. -/
def sampleGoodForm : IntakeForm :=
  { full_name := "Jane Doe", email := "a@b.co", phone_number := "555",
    years_experience := 2, desired_positions := ["Software Engineer"],
    current_location := "SF", tech_stack := "Python, JavaScript,  , React" }

lemma filter_map_strTrim (l : List String) :
    (l.filter (fun t => strTrim t ≠ "")).map strTrim =
      (l.map strTrim).filter (fun t => t ≠ "") := by
  induction l with
  | nil => rfl
  | cons a t ih => by_cases h : strTrim a = "" <;> simp [h] <;> simpa using ih

lemma get_fallback_questions_length (technology : String) :
    (get_fallback_questions technology).length = 4 := by
  unfold get_fallback_questions
  cases h : fallback_table.find? (fun kv => strContains (strLower technology) kv.1) with
  | none => simp only [h]; rfl
  | some kv =>
    have hmem := List.mem_of_find?_eq_some h
    simp only [h]
    simp only [fallback_table, List.mem_cons, List.not_mem_nil, or_false] at hmem
    rcases hmem with h1 | h1 | h1 | h1 <;> subst h1 <;> rfl

lemma lookupAssoc_append_self {α : Type} (l : List (String × α)) (k : String)
    (v : α) (h : lookupAssoc l k = none) :
    lookupAssoc (l ++ [(k, v)]) k = some v := by
  induction l with
  | nil => simp [lookupAssoc, List.find?]
  | cons a t ih =>
    by_cases hk : (a.1 == k) = true
    · exfalso; simp [lookupAssoc, List.find?, hk] at h
    · simp only [Bool.not_eq_true] at hk
      simp only [lookupAssoc, List.cons_append, List.find?, hk] at h ⊢
      exact ih h

lemma lookupAssoc_setAssoc {α : Type} (l : List (String × α)) (k : String) (v : α) :
    lookupAssoc (setAssoc l k v) k = some v := by
  induction l with
  | nil => simp [setAssoc, lookupAssoc, List.find?]
  | cons a t ih =>
    by_cases hk : (a.1 == k) = true
    · simp [setAssoc, hk, lookupAssoc, List.find?]
    · simp only [Bool.not_eq_true] at hk
      simpa [setAssoc, hk, lookupAssoc, List.find?] using ih

/-- C3: intake validation returns false exactly when one of the five
required string fields is empty, the desired-positions selection is empty,
or the email fails the pattern; the quoted examples behave as stated; and
a failed validation leaves the session state entirely unchanged (no
partial persistence), surfacing the fill-fields failure. -/
theorem validate_intake_spec :
    (∀ (fn em ph : String) (yx : Nat) (dp : List String) (loc ts : String),
      validate_form fn em ph yx dp loc ts = false ↔
        (fn = "" ∨ em = "" ∨ ph = "" ∨ loc = "" ∨ ts = "" ∨ dp = [] ∨
         validate_email em = false)) ∧
    validate_email "a@b.co" = true ∧
    validate_email "not-an-email" = false ∧
    validate_email "a@b" = false ∧
    validate_email "" = false ∧
    (∀ (st : AppState) (f : IntakeForm),
      validate_form f.full_name f.email f.phone_number f.years_experience
        f.desired_positions f.current_location f.tech_stack = false →
      collect_candidate_data st f = (st, [UIMsg.fillFields])) := by
  refine ⟨?_, by decide, by decide, by decide, by decide, ?_⟩
  · intro fn em ph yx dp loc ts
    unfold validate_form
    split_ifs with h1 h2
    · simp only [Bool.or_eq_true, decide_eq_true_eq] at h1
      simp only [eq_self_iff_true, true_iff]
      tauto
    · simp only [List.isEmpty_iff] at h2
      simp only [eq_self_iff_true, true_iff]
      tauto
    · simp only [Bool.or_eq_true, decide_eq_true_eq] at h1
      simp only [List.isEmpty_iff] at h2
      constructor
      · intro hv; tauto
      · intro hr; rcases hr with h | h | h | h | h | h | h <;> tauto
  · intro st f hval
    simp [collect_candidate_data, collect_basic_info, hval]

/-- Witness for C3 at a concrete failing form (empty full name; empty
phone number). -/
theorem validate_intake_spec_witness :
    validate_form "" "a@b.co" "555" 2 ["Software Engineer"] "SF" "Python" = false ∧
    collect_candidate_data initialState sampleBadForm =
      (initialState, [UIMsg.fillFields]) :=
  ⟨(validate_intake_spec.1 "" "a@b.co" "555" 2 ["Software Engineer"] "SF"
      "Python").mpr (Or.inl rfl),
   validate_intake_spec.2.2.2.2.2 initialState sampleBadForm (by decide)⟩

/-- C7: the derived tech-stack sequence is the comma-split of the raw
input with each segment trimmed and empty segments removed, in order; the
quoted example holds; and on every valid submission the persisted
`tech_stack_list` equals that derivation. -/
theorem tech_stack_parsing :
    parse_tech_stack "Python, JavaScript,  , React" =
      ["Python", "JavaScript", "React"] ∧
    (∀ raw, parse_tech_stack raw = spec_tech_stack raw) ∧
    (∀ (st : AppState) (f : IntakeForm),
      validate_form f.full_name f.email f.phone_number f.years_experience
        f.desired_positions f.current_location f.tech_stack = true →
      ((collect_candidate_data st f).1).tech_stack_list =
        parse_tech_stack f.tech_stack) := by
  refine ⟨by decide, ?_, ?_⟩
  · intro raw
    unfold parse_tech_stack spec_tech_stack
    exact filter_map_strTrim _
  · intro st f hval
    simp [collect_candidate_data, collect_basic_info, hval, add_to_history,
      save_candidate_data]

/-- Witness for C7 at a concrete valid form carrying the example input. -/
theorem tech_stack_parsing_witness :
    ((collect_candidate_data initialState sampleGoodForm).1).tech_stack_list =
      parse_tech_stack "Python, JavaScript,  , React" :=
  tech_stack_parsing.2.2 initialState sampleGoodForm (by decide)

/-- C4: with no credential (or a failed remote call) the static fallback
is used; the first table key contained in the lowercased technology name
selects that key's fixed four questions (byte-for-byte for "JavaScript",
and "python" wins over "javascript" for a name containing both); with no
matching key exactly the four generic template questions are produced,
each containing the technology name (e.g. "Rust"). -/
theorem fallback_question_source :
    (∀ (outcome : RemoteOutcome) (technology : String) (experience : Nat),
      generate_questions_for_tech "" outcome technology experience =
        get_fallback_questions technology) ∧
    (∀ (api_key technology : String) (experience : Nat),
      generate_questions_for_tech api_key RemoteOutcome.failure technology
        experience = get_fallback_questions technology) ∧
    generate_questions_for_tech "" RemoteOutcome.failure "JavaScript" 5 =
      ["Explain the event loop in JavaScript.",
       "What are the differences between let, const, and var?",
       "How does prototypal inheritance work in JavaScript?",
       "What are promises and how do they work?"] ∧
    (∀ (technology : String) (kv : String × List String),
      fallback_table.find? (fun kv => strContains (strLower technology) kv.1) =
          some kv →
      get_fallback_questions technology = kv.2) ∧
    (∀ technology : String,
      fallback_table.find? (fun kv => strContains (strLower technology) kv.1) =
          none →
      get_fallback_questions technology = generic_questions technology) ∧
    (generate_questions_for_tech "" RemoteOutcome.failure "Rust" 5 =
        generic_questions "Rust" ∧
     (generate_questions_for_tech "" RemoteOutcome.failure "Rust" 5).length = 4 ∧
     (generate_questions_for_tech "" RemoteOutcome.failure "Rust" 5).all
        (fun q => strContains q "Rust") = true) ∧
    get_fallback_questions "Python + JavaScript" =
      ["What are the key differences between lists and tuples in Python?",
       "How does Python handle memory management?",
       "Explain the concept of decorators in Python.",
       "What are some common use cases for generators?"] := by
  refine ⟨?_, ?_, by decide, ?_, ?_, ⟨by decide, by decide, by decide⟩, by decide⟩
  · intro o t e; simp [generate_questions_for_tech]
  · intro k t e
    by_cases h : k = "" <;> simp [generate_questions_for_tech, h]
  · intro t kv h; unfold get_fallback_questions; simp only [h]
  · intro t h; unfold get_fallback_questions; simp only [h]

/-- Witness for C4's first-match and no-match clauses at concrete
technology names. -/
theorem fallback_question_source_witness :
    get_fallback_questions "JavaScript" =
      ["Explain the event loop in JavaScript.",
       "What are the differences between let, const, and var?",
       "How does prototypal inheritance work in JavaScript?",
       "What are promises and how do they work?"] ∧
    get_fallback_questions "Rust" = generic_questions "Rust" :=
  ⟨fallback_question_source.2.2.2.1 "JavaScript"
      ("javascript",
       ["Explain the event loop in JavaScript.",
        "What are the differences between let, const, and var?",
        "How does prototypal inheritance work in JavaScript?",
        "What are promises and how do they work?"]) (by decide),
   fallback_question_source.2.2.2.2.1 "Rust" (by decide)⟩

/-- C6 (as stated) is refuted by an empty JSON-array reply: with a
credential configured and the service replying `[]`, the returned question
list has 0 entries, not at least 1. -/
theorem question_count_lower_bound_cex :
    ¬ (1 ≤ (generate_questions_for_tech "sk-test" (RemoteOutcome.jsonArray [])
        "Python" 3).length) := by decide

/-- C6 amended: for every technology, experience level, credential and
service reply, `get_questions` returns at most 5 question strings, and
every fallback-path result has exactly 4. -/
theorem question_count_upper_bound :
    (∀ (api_key : String) (outcome : RemoteOutcome) (technology : String)
        (experience : Nat),
      (generate_questions_for_tech api_key outcome technology experience).length
        ≤ 5) ∧
    (∀ technology : String, (get_fallback_questions technology).length = 4) := by
  constructor
  · intro k o t e
    unfold generate_questions_for_tech
    split_ifs with h
    · simp [get_fallback_questions_length]
    · cases o with
      | failure => simp [get_fallback_questions_length]
      | jsonArray qs =>
        simpa [List.length_take] using Nat.min_le_left 5 qs.length
      | plainText body =>
        simpa [List.length_take] using Nat.min_le_left 5
          ((((strSplitOn body '\n').filter (fun q => strTrim q ≠ "")).map
            strTrim).length)
  · exact get_fallback_questions_length

/-- C5: a technology whose question set is already stored is never
regenerated (the guard is a no-op with no generation event), and a fresh
technology is generated exactly once: the first pass stores the generated
list with one generation event, and a second pass returns the same state,
the same stored list, and no further generation event. -/
theorem question_memoization (gen : String → Nat → List String)
    (st : AppState) (tech : String)
    (hnew : lookupAssoc st.tech_questions tech = none) :
    (∀ (st' : AppState) (qs : List String),
      lookupAssoc st'.tech_questions tech = some qs →
      ensure_tech_questions gen st' tech = (st', false)) ∧
    (ensure_tech_questions gen st tech).2 = true ∧
    lookupAssoc (ensure_tech_questions gen st tech).1.tech_questions tech =
      some (gen tech (years_experience_of st)) ∧
    ensure_tech_questions gen (ensure_tech_questions gen st tech).1 tech =
      ((ensure_tech_questions gen st tech).1, false) := by
  have hpres : ∀ (st' : AppState) (qs : List String),
      lookupAssoc st'.tech_questions tech = some qs →
      ensure_tech_questions gen st' tech = (st', false) := by
    intro st' qs h
    simp [ensure_tech_questions, h]
  have h1 : ensure_tech_questions gen st tech =
      ({ st with tech_questions :=
          st.tech_questions ++ [(tech, gen tech (years_experience_of st))] },
       true) := by
    simp [ensure_tech_questions, hnew]
  have h2 : lookupAssoc (ensure_tech_questions gen st tech).1.tech_questions
      tech = some (gen tech (years_experience_of st)) := by
    rw [h1]
    exact lookupAssoc_append_self _ _ _ hnew
  exact ⟨hpres, by rw [h1], h2, hpres _ _ h2⟩

/-- Witness for C5: generating questions for "Python" in a fresh session
is one generation event, and a second pass is a no-op. -/
theorem question_memoization_witness :
    (ensure_tech_questions sampleGen initialState "Python").2 = true ∧
    ensure_tech_questions sampleGen
        (ensure_tech_questions sampleGen initialState "Python").1 "Python" =
      ((ensure_tech_questions sampleGen initialState "Python").1, false) :=
  ⟨(question_memoization sampleGen initialState "Python" (by decide)).2.1,
   (question_memoization sampleGen initialState "Python" (by decide)).2.2.2⟩

lemma ensure_shape (gen : String → Nat → List String) (st : AppState)
    (tech : String) :
    ∃ tq, (ensure_tech_questions gen st tech).1 =
      { st with tech_questions := tq } := by
  cases h : lookupAssoc st.tech_questions tech with
  | none =>
    exact ⟨st.tech_questions ++ [(tech, gen tech (years_experience_of st))],
      by simp [ensure_tech_questions, h]⟩
  | some qs => exact ⟨st.tech_questions, by simp [ensure_tech_questions, h]⟩

lemma conduct_stack (gen : String → Nat → List String) (st : AppState)
    (ev : AssessEvent) :
    (conduct_technical_assessment gen st ev).1.tech_stack_list =
      st.tech_stack_list := by
  unfold conduct_technical_assessment
  split_ifs with hemp hlt
  · rfl
  · obtain ⟨tq, htq⟩ := ensure_shape gen st
      (st.tech_stack_list.get ⟨st.current_tech_index, hlt⟩)
    cases ev with
    | render => simp only [htq]
    | submit answers =>
      simp only [htq]
      split_ifs with ha <;> rfl
  · rfl

lemma conduct_history (gen : String → Nat → List String) (st : AppState)
    (ev : AssessEvent) :
    (conduct_technical_assessment gen st ev).1.conversation_history =
      st.conversation_history := by
  unfold conduct_technical_assessment
  split_ifs with hemp hlt
  · rfl
  · obtain ⟨tq, htq⟩ := ensure_shape gen st
      (st.tech_stack_list.get ⟨st.current_tech_index, hlt⟩)
    cases ev with
    | render => simp only [htq]
    | submit answers =>
      simp only [htq]
      split_ifs with ha <;> rfl
  · rfl

lemma conduct_index (gen : String → Nat → List String) (st : AppState)
    (ev : AssessEvent) :
    (conduct_technical_assessment gen st ev).1.current_tech_index =
        st.current_tech_index ∨
      ((conduct_technical_assessment gen st ev).1.current_tech_index =
          st.current_tech_index + 1 ∧
       (conduct_technical_assessment gen st ev).1.current_stage =
          st.current_stage ∧
       st.current_tech_index < st.tech_stack_list.length) := by
  unfold conduct_technical_assessment
  split_ifs with hemp hlt
  · exact Or.inl rfl
  · obtain ⟨tq, htq⟩ := ensure_shape gen st
      (st.tech_stack_list.get ⟨st.current_tech_index, hlt⟩)
    cases ev with
    | render => simp only [htq]; simp
    | submit answers =>
      simp only [htq]
      split_ifs with ha
      · simp [hlt]
      · simp
  · exact Or.inl rfl

lemma conduct_stage (gen : String → Nat → List String) (st : AppState)
    (ev : AssessEvent) :
    (conduct_technical_assessment gen st ev).1.current_stage =
        st.current_stage ∨
      ((conduct_technical_assessment gen st ev).1.current_stage =
          Stage.completion ∧
       (conduct_technical_assessment gen st ev).1.current_tech_index =
          st.current_tech_index ∧
       st.tech_stack_list.length ≤ st.current_tech_index) := by
  unfold conduct_technical_assessment
  split_ifs with hemp hlt
  · exact Or.inl rfl
  · obtain ⟨tq, htq⟩ := ensure_shape gen st
      (st.tech_stack_list.get ⟨st.current_tech_index, hlt⟩)
    cases ev with
    | render => simp only [htq]; simp
    | submit answers =>
      simp only [htq]
      split_ifs with ha
      · simp
      · simp
  · exact Or.inr ⟨rfl, rfl, Nat.le_of_not_lt hlt⟩

lemma assessStep_stack (gen : String → Nat → List String) (st : AppState)
    (ev : AssessEvent) :
    (assessStep gen st ev).1.tech_stack_list = st.tech_stack_list := by
  unfold assessStep
  split_ifs with hs
  · exact conduct_stack gen st ev
  · rfl

lemma assessStep_index (gen : String → Nat → List String) (st : AppState)
    (ev : AssessEvent) :
    (assessStep gen st ev).1.current_tech_index = st.current_tech_index ∨
      ((assessStep gen st ev).1.current_tech_index =
          st.current_tech_index + 1 ∧
       (assessStep gen st ev).1.current_stage = st.current_stage ∧
       st.current_tech_index < st.tech_stack_list.length) := by
  unfold assessStep
  split_ifs with hs
  · exact conduct_index gen st ev
  · exact Or.inl rfl

lemma assessStep_stage (gen : String → Nat → List String) (st : AppState)
    (ev : AssessEvent) :
    (assessStep gen st ev).1.current_stage = st.current_stage ∨
      ((assessStep gen st ev).1.current_stage = Stage.completion ∧
       (assessStep gen st ev).1.current_tech_index = st.current_tech_index ∧
       st.tech_stack_list.length ≤ st.current_tech_index) := by
  unfold assessStep
  split_ifs with hs
  · exact conduct_stage gen st ev
  · exact Or.inl rfl

lemma assessStep_inv (gen : String → Nat → List String) (st : AppState)
    (ev : AssessEvent)
    (h1 : st.current_tech_index ≤ st.tech_stack_list.length)
    (h2 : st.current_stage = Stage.completion →
      st.current_tech_index = st.tech_stack_list.length) :
    (assessStep gen st ev).1.current_tech_index ≤
        (assessStep gen st ev).1.tech_stack_list.length ∧
      ((assessStep gen st ev).1.current_stage = Stage.completion →
        (assessStep gen st ev).1.current_tech_index =
          (assessStep gen st ev).1.tech_stack_list.length) := by
  have hstack := assessStep_stack gen st ev
  rcases assessStep_index gen st ev with hi | ⟨hi, hsame, hlt⟩
  · rcases assessStep_stage gen st ev with hs | ⟨hs, hidx, hge⟩
    · exact ⟨by rw [hi, hstack]; exact h1,
        fun hc => by rw [hi, hstack]; exact h2 (hs ▸ hc)⟩
    · exact ⟨by rw [hi, hstack]; exact h1, fun hc => by rw [hi, hstack]; omega⟩
  · constructor
    · rw [hi, hstack]; omega
    · intro hc
      have := h2 (hsame ▸ hc)
      omega

lemma assessTrace_stack (gen : String → Nat → List String) :
    ∀ (evs : List AssessEvent) (st : AppState),
      (assessTrace gen st evs).tech_stack_list = st.tech_stack_list := by
  intro evs
  induction evs with
  | nil => intro st; rfl
  | cons ev evs ih =>
    intro st
    calc (assessTrace gen (assessStep gen st ev).1 evs).tech_stack_list
        = (assessStep gen st ev).1.tech_stack_list := ih _
      _ = st.tech_stack_list := assessStep_stack gen st ev

lemma assessTrace_inv (gen : String → Nat → List String) :
    ∀ (evs : List AssessEvent) (st : AppState),
      st.current_tech_index ≤ st.tech_stack_list.length →
      (st.current_stage = Stage.completion →
        st.current_tech_index = st.tech_stack_list.length) →
      (assessTrace gen st evs).current_tech_index ≤
        (assessTrace gen st evs).tech_stack_list.length ∧
      ((assessTrace gen st evs).current_stage = Stage.completion →
        (assessTrace gen st evs).current_tech_index =
          (assessTrace gen st evs).tech_stack_list.length) := by
  intro evs
  induction evs with
  | nil => intro st h1 h2; exact ⟨h1, h2⟩
  | cons ev evs ih =>
    intro st h1 h2
    have h := assessStep_inv gen st ev h1 h2
    exact ih _ h.1 h.2

lemma assessTrace_index_count (gen : String → Nat → List String) :
    ∀ (evs : List AssessEvent) (st : AppState),
      (assessTrace gen st evs).current_tech_index =
        st.current_tech_index + successCount gen st evs := by
  intro evs
  induction evs with
  | nil => intro st; simp [assessTrace, successCount]
  | cons ev evs ih =>
    intro st
    have h := ih (assessStep gen st ev).1
    simp only [assessTrace, successCount]
    rcases assessStep_index gen st ev with hi | ⟨hi, hsame, hlt⟩
    · rw [h, hi, if_neg (by omega)]
      omega
    · rw [h, hi]
      simp only [eq_self_iff_true, if_true]
      omega

/-- C1: the assessment stage never hands over to `completion` while the
cursor is strictly below the tech-stack length; and along any sequence of
assessment-stage passes started at cursor 0 over a non-empty stack of
length n, reaching `completion` means exactly n successful per-technology
submissions occurred (the cursor advances by 1 on each of them and on
nothing else). -/
theorem assessment_completion_after_all_techs
    (gen : String → Nat → List String) (st : AppState)
    (evs : List AssessEvent)
    (hstage : st.current_stage = Stage.technical_assessment)
    (hidx : st.current_tech_index = 0)
    (hlen : 1 ≤ st.tech_stack_list.length) :
    (∀ (st' : AppState) (ev : AssessEvent),
      st'.current_stage = Stage.technical_assessment →
      st'.current_tech_index < st'.tech_stack_list.length →
      (assessStep gen st' ev).1.current_stage ≠ Stage.completion) ∧
    ((assessTrace gen st evs).current_stage = Stage.completion →
      successCount gen st evs = st.tech_stack_list.length) := by
  constructor
  · intro st' ev hs hlt hc
    rcases assessStep_stage gen st' ev with h | ⟨_, _, hge⟩
    · have : st'.current_stage = Stage.completion := h.symm.trans hc
      rw [hs] at this
      exact absurd this (by decide)
    · omega
  · intro hc
    have hinv := assessTrace_inv gen evs st (by omega)
      (by intro h; rw [hstage] at h; exact absurd h (by decide))
    have hcount := assessTrace_index_count gen evs st
    have hstk := assessTrace_stack gen evs st
    have hfin := hinv.2 hc
    rw [hstk] at hfin
    omega

/-- Witness for C1: one declared technology, one successful submission,
then a render pass that flips the stage to completion. -/
theorem assessment_completion_after_all_techs_witness :
    successCount sampleGen sampleAssessState
        [AssessEvent.submit ["a", "b"], AssessEvent.render] = 1 :=
  (assessment_completion_after_all_techs sampleGen sampleAssessState
      [AssessEvent.submit ["a", "b"], AssessEvent.render]
      rfl rfl (by decide)).2 (by decide)

/-- C2: submitting the per-technology form with every answer non-empty
records a `TechResponse` holding the question list and the parallel answer
list under the technology's name and advances the cursor by exactly 1,
staying in the assessment stage; submitting with any empty answer leaves
the whole session state unchanged and surfaces the answer-all failure. -/
theorem submit_answers_step (gen : String → Nat → List String)
    (st : AppState) (qs answers : List String)
    (hstage : st.current_stage = Stage.technical_assessment)
    (hlt : st.current_tech_index < st.tech_stack_list.length)
    (hq : lookupAssoc st.tech_questions
        (st.tech_stack_list.get ⟨st.current_tech_index, hlt⟩) = some qs)
    (hlen : answers.length = qs.length) :
    (answers.all (fun a => a != "") = true →
      (assessStep gen st (AssessEvent.submit answers)).1.current_tech_index =
          st.current_tech_index + 1 ∧
      (assessStep gen st (AssessEvent.submit answers)).1.current_stage =
          Stage.technical_assessment ∧
      lookupAssoc
          (assessStep gen st (AssessEvent.submit answers)).1.candidate_data.tech_responses
          (st.tech_stack_list.get ⟨st.current_tech_index, hlt⟩) =
        some { questions := qs, answers := answers } ∧
      qs.length = answers.length) ∧
    (answers.all (fun a => a != "") = false →
      assessStep gen st (AssessEvent.submit answers) =
        (st, [UIMsg.answerAllError])) := by
  have hne : st.tech_stack_list.isEmpty = false := by
    cases hsl : st.tech_stack_list with
    | nil => rw [hsl] at hlt; simp at hlt
    | cons a l => rfl
  have hens : ensure_tech_questions gen st
      (st.tech_stack_list.get ⟨st.current_tech_index, hlt⟩) =
      (st, false) := by
    unfold ensure_tech_questions
    rw [hq]
  unfold assessStep conduct_technical_assessment
  rw [if_pos hstage, if_neg (by simp [hne]), dif_pos hlt]
  simp only [hens, hq, Option.getD_some]
  constructor
  · intro ha
    rw [if_pos ha]
    exact ⟨rfl, hstage, lookupAssoc_setAssoc _ _ _, hlen.symm⟩
  · intro ha
    rw [if_neg (by simp [ha])]

/-- Witness for C2 at a concrete assessment state, in both branches: a
fully answered submission and one with an empty answer. -/
theorem submit_answers_step_witness :
    ((assessStep sampleGen sampleAssessState
        (AssessEvent.submit ["a1", "a2"])).1.current_tech_index = 1 ∧
     lookupAssoc (assessStep sampleGen sampleAssessState
          (AssessEvent.submit ["a1", "a2"])).1.candidate_data.tech_responses
          "Python" =
        some { questions := ["q1", "q2"], answers := ["a1", "a2"] }) ∧
    assessStep sampleGen sampleAssessState (AssessEvent.submit ["a1", ""]) =
      (sampleAssessState, [UIMsg.answerAllError]) := by
  have h1 := (submit_answers_step sampleGen sampleAssessState ["q1", "q2"]
    ["a1", "a2"] rfl (by decide) (by decide) rfl).1 (by decide)
  have h2 := (submit_answers_step sampleGen sampleAssessState ["q1", "q2"]
    ["a1", ""] rfl (by decide) (by decide) rfl).2 (by decide)
  exact ⟨⟨h1.1, h1.2.2.1⟩, h2⟩

/-- C9: with an empty declared tech stack, every assessment-stage pass
surfaces the no-technologies error and returns the state unchanged; any
sequence of passes leaves the session stuck in the assessment stage, so
`completion` is never reached. -/
theorem empty_tech_stack_blocks (gen : String → Nat → List String)
    (st : AppState)
    (hstage : st.current_stage = Stage.technical_assessment)
    (hempty : st.tech_stack_list = []) :
    (∀ ev, assessStep gen st ev = (st, [UIMsg.noTechError])) ∧
    (∀ evs, assessTrace gen st evs = st) ∧
    (∀ evs, (assessTrace gen st evs).current_stage =
      Stage.technical_assessment) := by
  have hstep : ∀ ev, assessStep gen st ev = (st, [UIMsg.noTechError]) := by
    intro ev
    unfold assessStep conduct_technical_assessment
    rw [if_pos hstage, if_pos (by simp [hempty])]
  have htrace : ∀ evs, assessTrace gen st evs = st := by
    intro evs
    induction evs with
    | nil => rfl
    | cons ev evs ih =>
      show assessTrace gen (assessStep gen st ev).1 evs = st
      rw [hstep ev]
      exact ih
  exact ⟨hstep, htrace, fun evs => by rw [htrace evs]; exact hstage⟩

/-- Witness for C9 at a concrete empty-stack assessment state. -/
theorem empty_tech_stack_blocks_witness :
    assessStep sampleGen sampleEmptyStackState AssessEvent.render =
      (sampleEmptyStackState, [UIMsg.noTechError]) ∧
    (assessTrace sampleGen sampleEmptyStackState
        [AssessEvent.render, AssessEvent.submit ["a"]]).current_stage =
      Stage.technical_assessment :=
  ⟨(empty_tech_stack_blocks sampleGen sampleEmptyStackState rfl rfl).1
      AssessEvent.render,
   (empty_tech_stack_blocks sampleGen sampleEmptyStackState rfl rfl).2.2
      [AssessEvent.render, AssessEvent.submit ["a"]]⟩

/-- C10: when the stored question list for the current technology is
empty, submitting the (question-less) form succeeds vacuously: a
`TechResponse` with empty question and answer lists is recorded under the
technology's name and the cursor advances by 1. -/
theorem empty_question_set_vacuous_advance (gen : String → Nat → List String)
    (st : AppState)
    (hstage : st.current_stage = Stage.technical_assessment)
    (hlt : st.current_tech_index < st.tech_stack_list.length)
    (hq : lookupAssoc st.tech_questions
        (st.tech_stack_list.get ⟨st.current_tech_index, hlt⟩) = some []) :
    (assessStep gen st (AssessEvent.submit [])).1.current_tech_index =
        st.current_tech_index + 1 ∧
    (assessStep gen st (AssessEvent.submit [])).1.current_stage =
        Stage.technical_assessment ∧
    lookupAssoc
        (assessStep gen st (AssessEvent.submit [])).1.candidate_data.tech_responses
        (st.tech_stack_list.get ⟨st.current_tech_index, hlt⟩) =
      some { questions := [], answers := [] } := by
  have hne : st.tech_stack_list.isEmpty = false := by
    cases hsl : st.tech_stack_list with
    | nil => rw [hsl] at hlt; simp at hlt
    | cons a l => rfl
  have hens : ensure_tech_questions gen st
      (st.tech_stack_list.get ⟨st.current_tech_index, hlt⟩) =
      (st, false) := by
    unfold ensure_tech_questions
    rw [hq]
  unfold assessStep conduct_technical_assessment
  rw [if_pos hstage, if_neg (by simp [hne]), dif_pos hlt]
  simp only [hens, hq, Option.getD_some]
  simp only [List.all_nil, eq_self_iff_true, if_true]
  refine ⟨?_, ?_, ?_⟩ <;> simp [hstage, lookupAssoc_setAssoc]

/-- Witness for C10 at a concrete state whose stored "Python" question
list is empty. -/
theorem empty_question_set_vacuous_advance_witness :
    (assessStep sampleGen sampleEmptyQState
        (AssessEvent.submit [])).1.current_tech_index = 1 ∧
    lookupAssoc (assessStep sampleGen sampleEmptyQState
          (AssessEvent.submit [])).1.candidate_data.tech_responses "Python" =
      some { questions := [], answers := [] } := by
  have h := empty_question_set_vacuous_advance sampleGen sampleEmptyQState
    rfl (by decide) (by decide)
  exact ⟨h.1, h.2.2⟩

lemma dispatch_chat_history (gen : String → Nat → List String)
    (st : AppState) (s : String) :
    (dispatch gen st (Event.chat s)).1.conversation_history =
      st.conversation_history := by
  unfold dispatch
  cases h : st.current_stage with
  | greeting => rfl
  | data_collection => rfl
  | technical_assessment => exact conduct_history gen st AssessEvent.render
  | completion => rfl

/-- C8: a non-empty chat message containing an exit keyword (lowercased,
substring match — "I need to EXIT now" qualifies) ends the turn with the
fixed thank-you message, skipping the stage dispatch and leaving
`current_stage` untouched; and whether or not the message is an exit
command, it is appended to the conversation history. -/
theorem exit_keyword_short_circuit (gen : String → Nat → List String)
    (st : AppState) (s : String) (hne : s ≠ "") :
    (EXIT_KEYWORDS.any (fun k => strContains (strLower s) k) = true →
      run gen st (Event.chat s) =
        (add_to_history st Role.user s, [UIMsg.thankYou])) ∧
    (run gen st (Event.chat s)).1.conversation_history =
      st.conversation_history ++ [{ role := Role.user, message := s }] ∧
    (EXIT_KEYWORDS.any (fun k => strContains (strLower s) k) = true →
      (run gen st (Event.chat s)).1.current_stage = st.current_stage) ∧
    EXIT_KEYWORDS.any
      (fun k => strContains (strLower "I need to EXIT now") k) = true := by
  refine ⟨?_, ?_, ?_, by decide⟩
  · intro hk
    simp [run, check_exit_command, hne, hk]
  · cases hk : EXIT_KEYWORDS.any (fun k => strContains (strLower s) k) with
    | false =>
      have hrun : run gen st (Event.chat s) =
          ((dispatch gen (add_to_history st Role.user s) (Event.chat s)).1,
           UIMsg.pleaseUseForm ::
             (dispatch gen (add_to_history st Role.user s) (Event.chat s)).2) := by
        simp [run, check_exit_command, hne, hk]
      rw [hrun]
      rw [show ((dispatch gen (add_to_history st Role.user s) (Event.chat s)).1,
            UIMsg.pleaseUseForm ::
              (dispatch gen (add_to_history st Role.user s)
                (Event.chat s)).2).1 =
          (dispatch gen (add_to_history st Role.user s) (Event.chat s)).1
        from rfl]
      rw [dispatch_chat_history]
      rfl
    | true =>
      have hrun : run gen st (Event.chat s) =
          (add_to_history st Role.user s, [UIMsg.thankYou]) := by
        simp [run, check_exit_command, hne, hk]
      rw [hrun]
      rfl
  · intro hk
    have hrun : run gen st (Event.chat s) =
        (add_to_history st Role.user s, [UIMsg.thankYou]) := by
      simp [run, check_exit_command, hne, hk]
    rw [hrun]
    rfl

/-- Witness for C8: the spec's own example message in a fresh session. -/
theorem exit_keyword_short_circuit_witness :
    run sampleGen initialState (Event.chat "I need to EXIT now") =
      (add_to_history initialState Role.user "I need to EXIT now",
       [UIMsg.thankYou]) :=
  (exit_keyword_short_circuit sampleGen initialState "I need to EXIT now"
      (by decide)).1 (by decide)
